import Mathlib

/-!
Shallow embedding of `run_script` from
`src/WORKINPROGRESS/tauri-desktop-app/src-tauri/src/lib.rs`.

The Rust function builds a command
  `sh src-tauri/resources/seo_image_processor.sh <path> (--lossless | --quality <n>)`,
spawns it with piped stdout/stderr (early return of the OS error string on
spawn failure), detaches two tasks that read lines from the two pipes and
forward them via `emit_all("log", ...)` (stdout lines verbatim, stderr lines
prefixed with "ERROR: "; lines whose decoding fails are skipped by
`if let Ok(line)`, and a failing `emit_all` is `unwrap`ped, panicking the
task), then blocks on `child.wait()` and returns `Ok(())` (mapping a wait
error to its string).

Concurrency is embedded as an explicit interleaving semantics: a
configuration holds the undelivered chunks of each pipe and the state of
each drain task, and a schedule (a list of task identifiers) drives a
deterministic `exec` function.  Quantifying over schedules captures every
interleaving the detached tasks, the child exit and the function return can
exhibit.
-/

namespace SeoImageConverter

/-- Which stream a line came from (ghost bookkeeping; the Rust code emits
both streams on the single event channel `"log"`). -/
inductive Origin where
  | out
  | err
deriving DecidableEq, Repr

/-- One `emit_all("log", payload)` call observed by the sink.  The `origin`
field records which drain task made the call; the consumer only sees
`payload`. -/
structure Event where
  origin : Origin
  payload : String
deriving DecidableEq, Repr

/-- One item yielded by `BufReader::lines()`: `ok s` models `Ok(s)` (a
decoded line, newline stripped), `bad` models `Err(_)` (a chunk that failed
line decoding). -/
inductive Chunk where
  | ok (s : String)
  | bad
deriving DecidableEq, Repr

/-- State of one drain task.  `notStarted` only occurs when spawn failed
(the tasks are never created); `aborted` models the panic caused by
`emit_all(...).unwrap()` failing. -/
inductive TaskState where
  | notStarted
  | running
  | done
  | aborted
deriving DecidableEq, Repr

/-- Task identifiers for the interleaving scheduler: the stdout drain task,
the stderr drain task, the child-exit event, and the main task's return
after `child.wait()`. -/
inductive Tid where
  | tOut
  | tErr
  | tExit
  | tRet
deriving DecidableEq, Repr

/-- A configuration of the running system after a successful spawn. -/
structure Config where
  outRem : List Chunk
  errRem : List Chunk
  outSt : TaskState
  errSt : TaskState
  exited : Bool
  returned : Bool
  events : List Event
deriving DecidableEq, Repr

/-- The textual marker the stderr drain task prepends:
`format!("ERROR: {}", line)`. -/
def errTag : String := "ERROR: "

/-- Initial configuration right after `spawn()` succeeded and both drain
tasks were spawned: the pipes hold the child's chunks, both tasks run,
nothing emitted. -/
def init (outChunks errChunks : List Chunk) : Config :=
  { outRem := outChunks
    errRem := errChunks
    outSt := .running
    errSt := .running
    exited := false
    returned := false
    events := [] }

/-- Configuration when `spawn()` failed: `run_script` returned before the
drain tasks were created and before any sink call. -/
def spawnFailConfig : Config :=
  { outRem := []
    errRem := []
    outSt := .notStarted
    errSt := .notStarted
    exited := false
    returned := false
    events := [] }

/-- One step of the stdout drain task
(`for line in reader.lines() { if let Ok(line) = line { emit.unwrap() } }`):
on `Ok(line)` emit it verbatim (a failing emit panics the task), on `Err`
skip the chunk, at end of stream finish. -/
def stepOut (sinkOk : Event → Bool) (c : Config) : Config :=
  match c.outSt, c.outRem with
  | .running, [] => { c with outSt := .done }
  | .running, Chunk.ok s :: rest =>
      let e : Event := ⟨.out, s⟩
      if sinkOk e then { c with outRem := rest, events := c.events ++ [e] }
      else { c with outSt := .aborted }
  | .running, Chunk.bad :: rest => { c with outRem := rest }
  | _, _ => c

/-- One step of the stderr drain task; identical to `stepOut` except the
payload is `format!("ERROR: {}", line)`. -/
def stepErr (sinkOk : Event → Bool) (c : Config) : Config :=
  match c.errSt, c.errRem with
  | .running, [] => { c with errSt := .done }
  | .running, Chunk.ok s :: rest =>
      let e : Event := ⟨.err, errTag ++ s⟩
      if sinkOk e then { c with errRem := rest, events := c.events ++ [e] }
      else { c with errSt := .aborted }
  | .running, Chunk.bad :: rest => { c with errRem := rest }
  | _, _ => c

/-- The child process exits (this can interleave at any point; the pipes may
still hold undelivered data afterwards). -/
def stepExit (c : Config) : Config :=
  { c with exited := true }

/-- The main task returns from `child.wait()`: only enabled once the child
has exited, and independent of the two detached drain tasks. -/
def stepRet (c : Config) : Config :=
  if c.exited then { c with returned := true } else c

/-- Dispatch one scheduler step. -/
def step (sinkOk : Event → Bool) (c : Config) : Tid → Config
  | .tOut => stepOut sinkOk c
  | .tErr => stepErr sinkOk c
  | .tExit => stepExit c
  | .tRet => stepRet c

/-- Run a whole schedule. -/
def exec (sinkOk : Event → Bool) : List Tid → Config → Config
  | [], c => c
  | t :: ts, c => exec sinkOk ts (step sinkOk c t)

/-- The value `run_script` returns once `child.wait()` has completed:
`child.wait().map_err(|e| e.to_string())?; Ok(())` — a wait error is
surfaced as its string, a successful wait yields `Ok(())` with the exit
status discarded. -/
def retValue (waitRes : Except String Nat) : Except String Unit :=
  match waitRes with
  | .ok _ => .ok ()
  | .error e => .error e

/-- The whole command handler.  `spawnRes` models the outcome of
`cmd.spawn()` (the string is the OS error text), `waitRes` the outcome of
`child.wait()` (exit code or OS error text), `outChunks`/`errChunks` the
data the child writes to its two pipes, `sinkOk` whether a given
`emit_all` call succeeds, and `sched` the interleaving.  The first
component is `some r` when `run_script` has returned `r` under this
schedule and `none` while it is still blocked in `child.wait()`. -/
def run_script (spawnRes : Except String Unit) (waitRes : Except String Nat)
    (outChunks errChunks : List Chunk) (sinkOk : Event → Bool)
    (sched : List Tid) : Option (Except String Unit) × Config :=
  match spawnRes with
  | .error e => (some (.error e), spawnFailConfig)
  | .ok _ =>
      let c := exec sinkOk sched (init outChunks errChunks)
      (if c.returned then some (retValue waitRes) else none, c)

/-- Argument list handed to `sh`: the hard-coded script path, then the
caller's `path`, then `--lossless` or `--quality <n>` depending on the
flag (`quality.to_string()` is the decimal rendering). -/
def buildArgs (path : String) (quality : Nat) (lossless : Bool) : List String :=
  ["src-tauri/resources/seo_image_processor.sh", path] ++
    (if lossless then ["--lossless"] else ["--quality", toString quality])

/-- The program `Command::new` is given: always `"sh"`. -/
def spawnedProgram : String := "sh"

/-- The hard-coded script passed as the first argument of `sh`. -/
def scriptPath : String := "src-tauri/resources/seo_image_processor.sh"

/-- A sink that accepts every delivery (every `emit_all` succeeds). -/
def sinkTrue : Event → Bool := fun _ => true

/-- A sink that rejects every delivery (every `emit_all` fails). -/
def sinkFalse : Event → Bool := fun _ => false

/-- The lines successfully decoded from a chunk list, in order
(`Err` chunks are skipped by `if let Ok(line)`). -/
def okLines : List Chunk → List String
  | [] => []
  | Chunk.ok s :: r => s :: okLines r
  | Chunk.bad :: r => okLines r

/-- The payloads of the sink calls made by the drain task of stream `o`,
in call order. -/
def eventsOf (o : Origin) : List Event → List String
  | [] => []
  | e :: r => if e.origin = o then e.payload :: eventsOf o r else eventsOf o r

/-- The stdout lines that are already emitted plus those still pending in a
running stdout drain task.  This quantity is preserved by every step when
the sink accepts all deliveries. -/
def outView (c : Config) : List String :=
  eventsOf .out c.events ++
    (match c.outSt with
      | .running => okLines c.outRem
      | _ => [])

/-- Analogue of `outView` for the stderr drain task; pending lines appear
with the `errTag` prefix they will be emitted with. -/
def errView (c : Config) : List String :=
  eventsOf .err c.events ++
    (match c.errSt with
      | .running => (okLines c.errRem).map (fun s => errTag ++ s)
      | _ => [])

theorem eventsOf_append (o : Origin) (a b : List Event) :
    eventsOf o (a ++ b) = eventsOf o a ++ eventsOf o b := by
  induction a with
  | nil => rfl
  | cons e r ih =>
      simp only [List.cons_append, eventsOf]
      split <;> simp [ih]

theorem exec_append (k : Event → Bool) (s1 s2 : List Tid) (c : Config) :
    exec k (s1 ++ s2) c = exec k s2 (exec k s1 c) := by
  induction s1 generalizing c with
  | nil => rfl
  | cons t ts ih =>
      show exec k (ts ++ s2) (step k c t) = exec k s2 (exec k ts (step k c t))
      exact ih (step k c t)

theorem okLines_append (a b : List Chunk) :
    okLines (a ++ b) = okLines a ++ okLines b := by
  induction a with
  | nil => rfl
  | cons ch r ih => cases ch <;> simp [okLines, ih]

theorem okLines_map_ok (l : List String) : okLines (l.map Chunk.ok) = l := by
  induction l with
  | nil => rfl
  | cons s r ih => simp [okLines, ih]

theorem outView_step (c : Config) (t : Tid) :
    outView (step sinkTrue c t) = outView c := by
  cases t with
  | tOut =>
      show outView (stepOut sinkTrue c) = outView c
      unfold stepOut
      split <;> simp_all [outView, okLines, eventsOf_append, eventsOf, sinkTrue]
  | tErr =>
      show outView (stepErr sinkTrue c) = outView c
      unfold stepErr
      split <;> simp_all [outView, eventsOf_append, eventsOf, sinkTrue]
  | tExit => rfl
  | tRet =>
      show outView (stepRet c) = outView c
      unfold stepRet
      split <;> rfl

theorem errView_step (c : Config) (t : Tid) :
    errView (step sinkTrue c t) = errView c := by
  cases t with
  | tOut =>
      show errView (stepOut sinkTrue c) = errView c
      unfold stepOut
      split <;> simp_all [errView, eventsOf_append, eventsOf, sinkTrue]
  | tErr =>
      show errView (stepErr sinkTrue c) = errView c
      unfold stepErr
      split <;> simp_all [errView, okLines, eventsOf_append, eventsOf, sinkTrue]
  | tExit => rfl
  | tRet =>
      show errView (stepRet c) = errView c
      unfold stepRet
      split <;> rfl

theorem outView_exec (sched : List Tid) (c : Config) :
    outView (exec sinkTrue sched c) = outView c := by
  induction sched generalizing c with
  | nil => rfl
  | cons t ts ih =>
      show outView (exec sinkTrue ts (step sinkTrue c t)) = outView c
      rw [ih, outView_step]

theorem errView_exec (sched : List Tid) (c : Config) :
    errView (exec sinkTrue sched c) = errView c := by
  induction sched generalizing c with
  | nil => rfl
  | cons t ts ih =>
      show errView (exec sinkTrue ts (step sinkTrue c t)) = errView c
      rw [ih, errView_step]

theorem stepOut_returned (k : Event → Bool) (c : Config) :
    (stepOut k c).returned = c.returned := by
  unfold stepOut
  split <;> first | rfl | (dsimp only; split <;> rfl)

theorem stepOut_exited (k : Event → Bool) (c : Config) :
    (stepOut k c).exited = c.exited := by
  unfold stepOut
  split <;> first | rfl | (dsimp only; split <;> rfl)

theorem stepErr_returned (k : Event → Bool) (c : Config) :
    (stepErr k c).returned = c.returned := by
  unfold stepErr
  split <;> first | rfl | (dsimp only; split <;> rfl)

theorem stepErr_exited (k : Event → Bool) (c : Config) :
    (stepErr k c).exited = c.exited := by
  unfold stepErr
  split <;> first | rfl | (dsimp only; split <;> rfl)

theorem returned_imp_exited_step (k : Event → Bool) (c : Config) (t : Tid)
    (h : c.returned = true → c.exited = true) :
    (step k c t).returned = true → (step k c t).exited = true := by
  cases t with
  | tOut =>
      show (stepOut k c).returned = true → (stepOut k c).exited = true
      rw [stepOut_returned, stepOut_exited]; exact h
  | tErr =>
      show (stepErr k c).returned = true → (stepErr k c).exited = true
      rw [stepErr_returned, stepErr_exited]; exact h
  | tExit => intro _; rfl
  | tRet =>
      show (stepRet c).returned = true → (stepRet c).exited = true
      unfold stepRet
      split <;> simp_all

theorem returned_imp_exited_exec (k : Event → Bool) (sched : List Tid) (c : Config)
    (h : c.returned = true → c.exited = true) :
    (exec k sched c).returned = true → (exec k sched c).exited = true := by
  induction sched generalizing c with
  | nil => exact h
  | cons t ts ih =>
      exact ih (step k c t) (returned_imp_exited_step k c t h)

theorem exec_exit_ret_returned (k : Event → Bool) (c : Config) :
    (exec k [Tid.tExit, Tid.tRet] c).returned = true := by
  show (stepRet (stepExit c)).returned = true
  unfold stepRet stepExit
  simp

theorem outView_init (o e : List Chunk) : outView (init o e) = okLines o := by
  simp [outView, init, eventsOf]

theorem errView_init (o e : List Chunk) :
    errView (init o e) = (okLines e).map (fun s => errTag ++ s) := by
  simp [errView, init, eventsOf]

/-- Claim C1, counterexample: under the schedule where the child exits and
`child.wait()` returns before the stdout drain task is ever scheduled,
`run_script` reports completion (`some (.ok ())`) while the stdout drain
task is still running with an undelivered line — the source's drain tasks
are detached, so completion can be reported before the drains finish. -/
theorem c1_return_before_drain_counterexample :
    (run_script (.ok ()) (.ok 0) [Chunk.ok "a"] [] sinkTrue [Tid.tExit, Tid.tRet]).1
      = some (.ok ())
    ∧ (run_script (.ok ()) (.ok 0) [Chunk.ok "a"] [] sinkTrue [Tid.tExit, Tid.tRet]).2.outSt
      = TaskState.running
    ∧ (run_script (.ok ()) (.ok 0) [Chunk.ok "a"] [] sinkTrue [Tid.tExit, Tid.tRet]).2.outRem
      = [Chunk.ok "a"] :=
  ⟨rfl, rfl, rfl⟩

/-- Claim C1, amended: for every successfully spawned invocation and every
schedule, `run_script` reports completion only after the child process has
exited (`child.wait()` cannot return earlier); it does not, however, wait
for the two detached drain tasks. -/
theorem c1_run_returns_only_after_child_exit (waitRes : Except String Nat)
    (outChunks errChunks : List Chunk) (sinkOk : Event → Bool) (sched : List Tid)
    (h : (run_script (.ok ()) waitRes outChunks errChunks sinkOk sched).2.returned = true) :
    (run_script (.ok ()) waitRes outChunks errChunks sinkOk sched).2.exited = true := by
  have hfin : (run_script (.ok ()) waitRes outChunks errChunks sinkOk sched).2
      = exec sinkOk sched (init outChunks errChunks) := rfl
  rw [hfin] at h ⊢
  exact returned_imp_exited_exec sinkOk sched (init outChunks errChunks) (by simp [init]) h

/-- Witness for `c1_run_returns_only_after_child_exit` at a concrete run. -/
theorem c1_run_returns_only_after_child_exit_witness :
    (run_script (.ok ()) (.ok 0) [] [] sinkTrue [Tid.tExit, Tid.tRet]).2.returned = true
    ∧ (run_script (.ok ()) (.ok 0) [] [] sinkTrue [Tid.tExit, Tid.tRet]).2.exited = true :=
  ⟨rfl, c1_run_returns_only_after_child_exit (.ok 0) [] [] sinkTrue [Tid.tExit, Tid.tRet] rfl⟩

/-- Claim C2: for a child writing N decodable lines to stdout and M to
stderr, under every schedule in which both drain tasks reach end-of-stream
and every `emit_all` succeeds, the sink receives exactly the N stdout lines
in program order from the stdout task and exactly the M stderr lines in
program order from the stderr task (each with the `"ERROR: "` text the
stderr task prepends); interleaving across the two streams is schedule
dependent and unconstrained. -/
theorem c2_per_stream_lines_exact_and_ordered (waitRes : Except String Nat)
    (outLines errLines : List String) (sched : List Tid)
    (hOut : (run_script (.ok ()) waitRes (outLines.map Chunk.ok) (errLines.map Chunk.ok)
        sinkTrue sched).2.outSt = TaskState.done)
    (hErr : (run_script (.ok ()) waitRes (outLines.map Chunk.ok) (errLines.map Chunk.ok)
        sinkTrue sched).2.errSt = TaskState.done) :
    eventsOf .out (run_script (.ok ()) waitRes (outLines.map Chunk.ok) (errLines.map Chunk.ok)
        sinkTrue sched).2.events = outLines
    ∧ eventsOf .err (run_script (.ok ()) waitRes (outLines.map Chunk.ok) (errLines.map Chunk.ok)
        sinkTrue sched).2.events = errLines.map (fun s => errTag ++ s) := by
  have hfin : (run_script (.ok ()) waitRes (outLines.map Chunk.ok) (errLines.map Chunk.ok)
      sinkTrue sched).2
      = exec sinkTrue sched (init (outLines.map Chunk.ok) (errLines.map Chunk.ok)) := rfl
  rw [hfin] at hOut hErr ⊢
  constructor
  · have h := outView_exec sched (init (outLines.map Chunk.ok) (errLines.map Chunk.ok))
    rw [outView_init] at h
    simp only [outView] at h
    rw [hOut] at h
    simp [okLines_map_ok] at h
    exact h
  · have h := errView_exec sched (init (outLines.map Chunk.ok) (errLines.map Chunk.ok))
    rw [errView_init] at h
    simp only [errView] at h
    rw [hErr] at h
    simp [okLines_map_ok] at h
    exact h

/-- Witness for `c2_per_stream_lines_exact_and_ordered` at a concrete run. -/
theorem c2_per_stream_lines_exact_and_ordered_witness :
    ((run_script (.ok ()) (.ok 0) (["a"].map Chunk.ok) (["x"].map Chunk.ok) sinkTrue
        [Tid.tOut, Tid.tOut, Tid.tErr, Tid.tErr]).2.outSt = TaskState.done
    ∧ (run_script (.ok ()) (.ok 0) (["a"].map Chunk.ok) (["x"].map Chunk.ok) sinkTrue
        [Tid.tOut, Tid.tOut, Tid.tErr, Tid.tErr]).2.errSt = TaskState.done)
    ∧ eventsOf .out (run_script (.ok ()) (.ok 0) (["a"].map Chunk.ok) (["x"].map Chunk.ok)
        sinkTrue [Tid.tOut, Tid.tOut, Tid.tErr, Tid.tErr]).2.events = ["a"]
    ∧ eventsOf .err (run_script (.ok ()) (.ok 0) (["a"].map Chunk.ok) (["x"].map Chunk.ok)
        sinkTrue [Tid.tOut, Tid.tOut, Tid.tErr, Tid.tErr]).2.events
      = ["x"].map (fun s => errTag ++ s) :=
  ⟨⟨rfl, rfl⟩,
    c2_per_stream_lines_exact_and_ordered (.ok 0) ["a"] ["x"]
      [Tid.tOut, Tid.tOut, Tid.tErr, Tid.tErr] rfl rfl⟩

/-- Claim C3: when `cmd.spawn()` fails, `run_script` returns immediately
with the OS error text (`map_err(|e| e.to_string())?`), the resulting
configuration records zero sink calls, and neither drain task was ever
started — independent of the pipe contents, the sink, and the schedule. -/
theorem c3_spawn_failure_immediate_error_no_tasks (e : String) (waitRes : Except String Nat)
    (outChunks errChunks : List Chunk) (sinkOk : Event → Bool) (sched : List Tid) :
    run_script (.error e) waitRes outChunks errChunks sinkOk sched
      = (some (.error e), spawnFailConfig)
    ∧ spawnFailConfig.events = []
    ∧ spawnFailConfig.outSt = TaskState.notStarted
    ∧ spawnFailConfig.errSt = TaskState.notStarted :=
  ⟨rfl, rfl, rfl, rfl⟩

/-- Claim C4, counterexample: with a sink that always fails, the first
stdout line's `emit_all(...).unwrap()` panics the stdout drain task — the
task is aborted by a delivery failure (and the remaining line is never
processed), contradicting the claim that a sink failure does not abort the
drain task. -/
theorem c4_sink_failure_aborts_drain_counterexample :
    (run_script (.ok ()) (.ok 0) [Chunk.ok "a", Chunk.ok "b"] [] sinkFalse
        [Tid.tOut, Tid.tOut, Tid.tExit, Tid.tRet]).2.outSt = TaskState.aborted
    ∧ (run_script (.ok ()) (.ok 0) [Chunk.ok "a", Chunk.ok "b"] [] sinkFalse
        [Tid.tOut, Tid.tOut, Tid.tExit, Tid.tRet]).2.events = [] :=
  ⟨rfl, rfl⟩

/-- Claim C4, amended: a sink-delivery failure panics the affected drain
task (dropping that stream's remaining lines), but because `child.wait()`
does not depend on the detached tasks, `run_script` still completes and
reports its result even when every delivery fails: any schedule extended by
the child exiting and the wait returning yields the value `retValue
waitRes` (`Ok(())` on a successful wait, the wait error otherwise). -/
theorem c4_run_completes_despite_sink_failure (waitRes : Except String Nat)
    (outChunks errChunks : List Chunk) (sched : List Tid) :
    (run_script (.ok ()) waitRes outChunks errChunks sinkFalse
        (sched ++ [Tid.tExit, Tid.tRet])).1 = some (retValue waitRes) := by
  have h : (exec sinkFalse (sched ++ [Tid.tExit, Tid.tRet])
      (init outChunks errChunks)).returned = true := by
    rw [exec_append]
    exact exec_exit_ret_returned sinkFalse _
  show (if (exec sinkFalse (sched ++ [Tid.tExit, Tid.tRet])
      (init outChunks errChunks)).returned
    then some (retValue waitRes) else none) = some (retValue waitRes)
  simp [h]

/-- Claim C5, counterexample: a chunk that fails line decoding (`Err` from
`reader.lines()`) is skipped by `if let Ok(line) = line` — the drain task
completes having made zero sink calls, so the content is discarded rather
than forwarded as a diagnostic line with a decoding-failure marker. -/
theorem c5_bad_chunk_dropped_counterexample :
    (run_script (.ok ()) (.ok 0) [Chunk.bad] [] sinkTrue
        [Tid.tOut, Tid.tOut, Tid.tExit, Tid.tRet]).2.events = []
    ∧ (run_script (.ok ()) (.ok 0) [Chunk.bad] [] sinkTrue
        [Tid.tOut, Tid.tOut, Tid.tExit, Tid.tRet]).2.outSt = TaskState.done :=
  ⟨rfl, rfl⟩

/-- Claim C5, amended: a chunk failing line decoding is silently dropped —
no sink event of any kind is produced for it — while the drain continues
with the surrounding lines: a fully drained stdout stream containing a bad
chunk delivers exactly the successfully decoded lines around it. -/
theorem c5_bad_chunks_silently_skipped (waitRes : Except String Nat)
    (pre post errChunks : List Chunk) (sched : List Tid)
    (hOut : (run_script (.ok ()) waitRes (pre ++ Chunk.bad :: post) errChunks
        sinkTrue sched).2.outSt = TaskState.done) :
    eventsOf .out (run_script (.ok ()) waitRes (pre ++ Chunk.bad :: post) errChunks
        sinkTrue sched).2.events = okLines pre ++ okLines post := by
  have hfin : (run_script (.ok ()) waitRes (pre ++ Chunk.bad :: post) errChunks
      sinkTrue sched).2
      = exec sinkTrue sched (init (pre ++ Chunk.bad :: post) errChunks) := rfl
  rw [hfin] at hOut ⊢
  have h := outView_exec sched (init (pre ++ Chunk.bad :: post) errChunks)
  rw [outView_init] at h
  simp only [outView] at h
  rw [hOut] at h
  simp [okLines_append, okLines] at h
  exact h

/-- Witness for `c5_bad_chunks_silently_skipped` at a concrete run. -/
theorem c5_bad_chunks_silently_skipped_witness :
    (run_script (.ok ()) (.ok 0) ([Chunk.ok "a"] ++ Chunk.bad :: [Chunk.ok "b"]) [] sinkTrue
        [Tid.tOut, Tid.tOut, Tid.tOut, Tid.tOut]).2.outSt = TaskState.done
    ∧ eventsOf .out (run_script (.ok ()) (.ok 0)
        ([Chunk.ok "a"] ++ Chunk.bad :: [Chunk.ok "b"]) [] sinkTrue
        [Tid.tOut, Tid.tOut, Tid.tOut, Tid.tOut]).2.events
      = okLines [Chunk.ok "a"] ++ okLines [Chunk.ok "b"] :=
  ⟨rfl, c5_bad_chunks_silently_skipped (.ok 0) [Chunk.ok "a"] [Chunk.ok "b"] []
    [Tid.tOut, Tid.tOut, Tid.tOut, Tid.tOut] rfl⟩

/-- Claim C6, counterexample: the result of `run_script` does not carry the
child's exit code — `child.wait().map_err(...)?; Ok(())` discards the exit
status, so the spec scenario (exit code 0) and the same run with exit code
1 produce *identical* results, namely `some (.ok ())`, which contains no
code at all. -/
theorem c6_exit_code_not_carried_counterexample :
    run_script (.ok ()) (.ok 0) [Chunk.ok "a", Chunk.ok "b"] [Chunk.ok "x"] sinkTrue
        [Tid.tOut, Tid.tOut, Tid.tOut, Tid.tErr, Tid.tErr, Tid.tExit, Tid.tRet]
      = run_script (.ok ()) (.ok 1) [Chunk.ok "a", Chunk.ok "b"] [Chunk.ok "x"] sinkTrue
        [Tid.tOut, Tid.tOut, Tid.tOut, Tid.tErr, Tid.tErr, Tid.tExit, Tid.tRet]
    ∧ (run_script (.ok ()) (.ok 0) [Chunk.ok "a", Chunk.ok "b"] [Chunk.ok "x"] sinkTrue
        [Tid.tOut, Tid.tOut, Tid.tOut, Tid.tErr, Tid.tErr, Tid.tExit, Tid.tRet]).1
      = some (Except.ok ()) :=
  ⟨rfl, rfl⟩

/-- Claim C6, amended: `run_script` reports `Ok(())` for every successfully
waited child, discarding the exit code (`retValue (.ok code) = .ok ()` for
every code); in the spec scenario the sink receives `"a"`, `"b"` from the
stdout task and `"ERROR: x"` from the stderr task, and `run_script` returns
`Ok(())` rather than an outcome carrying code 0. -/
theorem c6_scenario_events_and_unit_result (code : Nat) :
    retValue (.ok code) = .ok ()
    ∧ (run_script (.ok ()) (.ok 0) [Chunk.ok "a", Chunk.ok "b"] [Chunk.ok "x"] sinkTrue
        [Tid.tOut, Tid.tOut, Tid.tOut, Tid.tErr, Tid.tErr, Tid.tExit, Tid.tRet]).1
      = some (.ok ())
    ∧ (run_script (.ok ()) (.ok 0) [Chunk.ok "a", Chunk.ok "b"] [Chunk.ok "x"] sinkTrue
        [Tid.tOut, Tid.tOut, Tid.tOut, Tid.tErr, Tid.tErr, Tid.tExit, Tid.tRet]).2.events
      = [⟨Origin.out, "a"⟩, ⟨Origin.out, "b"⟩, ⟨Origin.err, "ERROR: x"⟩] :=
  ⟨rfl, rfl, rfl⟩

/-- Claim C7: the argument vector handed to the processing script (the
arguments after the script path in the constructed command line) is exactly
`[path, "--lossless"]` when `lossless` is true and
`[path, "--quality", <decimal n>]` when it is false, for every caller
input. -/
theorem c7_script_argument_vector (path : String) (quality : Nat) (lossless : Bool) :
    buildArgs path quality lossless
      = scriptPath :: path ::
          (if lossless then ["--lossless"] else ["--quality", toString quality])
    ∧ (buildArgs path quality lossless).drop 1
      = path :: (if lossless then ["--lossless"] else ["--quality", toString quality]) := by
  cases lossless <;> exact ⟨rfl, rfl⟩

/-- Claim C8, counterexample: the `"ERROR: "` marker is a textual prefix on
the shared `"log"` channel, so it does not distinguish a stderr line from
every possible stdout line: a child writing `"ERROR: x"` to stdout and
`"x"` to stderr produces two sink calls with *identical* payloads
(`"ERROR: x"`), though they originate from different streams — a consumer
of the payloads cannot separate them. -/
theorem c8_error_marker_ambiguous_counterexample :
    (run_script (.ok ()) (.ok 0) [Chunk.ok "ERROR: x"] [Chunk.ok "x"] sinkTrue
        [Tid.tOut, Tid.tOut, Tid.tErr, Tid.tErr, Tid.tExit, Tid.tRet]).2.events
      = [⟨Origin.out, "ERROR: x"⟩, ⟨Origin.err, "ERROR: x"⟩]
    ∧ ((run_script (.ok ()) (.ok 0) [Chunk.ok "ERROR: x"] [Chunk.ok "x"] sinkTrue
        [Tid.tOut, Tid.tOut, Tid.tErr, Tid.tErr, Tid.tExit, Tid.tRet]).2.events.map
          Event.payload)
      = ["ERROR: x", "ERROR: x"] :=
  ⟨rfl, rfl⟩

/-- Claim C8, amended: every stderr line delivered to the sink is marked
with the textual prefix `"ERROR: "` (in stream order, no content lost), but
the marking is only a string prefix and does not distinguish a stderr line
from a stdout line that itself begins with `"ERROR: "`. -/
theorem c8_stderr_lines_error_tagged (waitRes : Except String Nat)
    (outChunks : List Chunk) (errLines : List String) (sched : List Tid)
    (hErr : (run_script (.ok ()) waitRes outChunks (errLines.map Chunk.ok)
        sinkTrue sched).2.errSt = TaskState.done) :
    eventsOf .err (run_script (.ok ()) waitRes outChunks (errLines.map Chunk.ok)
        sinkTrue sched).2.events = errLines.map (fun s => errTag ++ s) := by
  have hfin : (run_script (.ok ()) waitRes outChunks (errLines.map Chunk.ok)
      sinkTrue sched).2
      = exec sinkTrue sched (init outChunks (errLines.map Chunk.ok)) := rfl
  rw [hfin] at hErr ⊢
  have h := errView_exec sched (init outChunks (errLines.map Chunk.ok))
  rw [errView_init] at h
  simp only [errView] at h
  rw [hErr] at h
  simp [okLines_map_ok] at h
  exact h

/-- Witness for `c8_stderr_lines_error_tagged` at a concrete run. -/
theorem c8_stderr_lines_error_tagged_witness :
    (run_script (.ok ()) (.ok 0) [] (["x"].map Chunk.ok) sinkTrue
        [Tid.tErr, Tid.tErr]).2.errSt = TaskState.done
    ∧ eventsOf .err (run_script (.ok ()) (.ok 0) [] (["x"].map Chunk.ok) sinkTrue
        [Tid.tErr, Tid.tErr]).2.events = ["x"].map (fun s => errTag ++ s) :=
  ⟨rfl, c8_stderr_lines_error_tagged (.ok 0) [] ["x"] [Tid.tErr, Tid.tErr] rfl⟩

/-- Claim C9: when `child.wait()` fails, `run_script` surfaces the OS error
text as an explicit error value (`map_err(|e| e.to_string())?`) rather than
returning success — for every stream content, sink, and schedule on which
the wait completes. -/
theorem c9_wait_error_surfaced (e : String) (outChunks errChunks : List Chunk)
    (sinkOk : Event → Bool) (sched : List Tid) :
    (run_script (.ok ()) (.error e) outChunks errChunks sinkOk
        (sched ++ [Tid.tExit, Tid.tRet])).1 = some (.error e) := by
  have h : (exec sinkOk (sched ++ [Tid.tExit, Tid.tRet])
      (init outChunks errChunks)).returned = true := by
    rw [exec_append]
    exact exec_exit_ret_returned sinkOk _
  show (if (exec sinkOk (sched ++ [Tid.tExit, Tid.tRet])
      (init outChunks errChunks)).returned
    then some (retValue (.error e)) else none) = some (.error e)
  simp [h, retValue]

/-- Claim C10: for every caller input, the spawned program is the fixed
`"sh"` and the constructed argument list starts with the hard-coded script
path followed by the caller-supplied path — the caller's path is never the
executed program, only the script's first argument. -/
theorem c10_fixed_shell_and_script (path : String) (quality : Nat) (lossless : Bool) :
    spawnedProgram = "sh"
    ∧ (buildArgs path quality lossless).take 2 = [scriptPath, path] := by
  cases lossless <;> exact ⟨rfl, rfl⟩

end SeoImageConverter
